import Mathlib

/-
Shallow embedding of the NiaARMTS core: `rule.py` (vector-to-rule decoder)
and `metrics.py` (support / inclusion / amplitude / fitness).  Python floats
are modelled as rationals, Python exceptions as `Except PyErr`.
-/

/-- Python exceptions raised by the embedded code. -/
inductive PyErr where
  | valueError
  | indexError
  | keyError
  | typeError
  | divByZero
deriving DecidableEq

/-- Per-feature metadata, as stored in the feature registry dictionary. -/
structure FeatureMeta where
  type : String
  min : ℚ
  max : ℚ
  categories : List String
deriving DecidableEq

/-- A decoded rule attribute (the dict built by `add_attribute`). -/
structure Attribute where
  feature : String
  type : String
  border1 : ℚ
  border2 : ℚ
  category : String
deriving DecidableEq

/-- Kernel-reducible clone of rational addition (`Rat.add` is marked
`@[irreducible]`, which blocks evaluation inside `decide`); `qadd_eq` below
proves it is `+`. -/
def qadd (a b : ℚ) : ℚ :=
  mkRat (a.num * b.den + b.num * a.den) (a.den * b.den)

/-- Kernel-reducible clone of rational subtraction; `qsub_eq` below proves
it is `-`. -/
def qsub (a b : ℚ) : ℚ :=
  mkRat (a.num * b.den - b.num * a.den) (a.den * b.den)

/-- Kernel-reducible clone of rational multiplication; `qmul_eq` below
proves it is `*`. -/
def qmul (a b : ℚ) : ℚ :=
  mkRat (a.num * b.num) (a.den * b.den)

/-- Floor of a rational, computed as floor division of numerator by
denominator (`ratFloor_eq` below shows it is `⌊q⌋`; `Int.fdiv` is used
because it evaluates by kernel reduction). -/
def ratFloor (q : ℚ) : ℤ :=
  q.num.fdiv q.den

/-- Ceiling of a rational (`ratCeil_eq` below shows it is `⌈q⌉`). -/
def ratCeil (q : ℚ) : ℤ :=
  -ratFloor (-q)

/-- Python `int()` applied to a rational: truncation toward zero. -/
def truncQ (q : ℚ) : ℤ :=
  if 0 ≤ q then ratFloor q else ratCeil q

/-- `np.round` ties-to-even rounding of a rational to an integer. -/
def roundHalfEven (q : ℚ) : ℤ :=
  if qsub q (ratFloor q) < mkRat 1 2 then ratFloor q
  else if mkRat 1 2 < qsub q (ratFloor q) then ratFloor q + 1
  else if ratFloor q % 2 = 0 then ratFloor q else ratFloor q + 1

/-- `np.round(x, 4)`: round to 4 decimal digits (`round4_eq` below shows the
`mkRat` is the plain division by `10⁴`). -/
def round4 (q : ℚ) : ℚ :=
  mkRat (roundHalfEven (qmul q 10000)) 10000

/-- Python list indexing `l[i]` with negative-index wrap-around;
out-of-range raises `IndexError`. -/
def pythonGet (l : List String) (i : ℤ) : Except PyErr String :=
  if 0 ≤ i then
    match l[i.toNat]? with
    | some s => .ok s
    | none => .error .indexError
  else if i + l.length < 0 then .error .indexError
  else
    match l[(i + l.length).toNat]? with
    | some s => .ok s
    | none => .error .indexError

/-- `feature_position` from rule.py: sum of slot widths (2 for Categorical,
3 otherwise) of the features preceding the first one named `feature_name`
in registry order. -/
def feature_position (features : List (String × FeatureMeta)) (feature_name : String) : ℕ :=
  match features with
  | [] => 0
  | (n, m) :: rest =>
    if n = feature_name then 0
    else (if m.type = "Categorical" then 2 else 3) + feature_position rest feature_name

/-- `calculate_border` from rule.py: linear rescale into `[min, max]`. -/
def calculate_border (feature_meta : FeatureMeta) (value : ℚ) : ℚ :=
  qadd feature_meta.min (qmul (qsub feature_meta.max feature_meta.min) value)

/-- `calculate_selected_category` from rule.py: `int(value * (num_categories - 1))`. -/
def calculate_selected_category (value : ℚ) (num_categories : ℕ) : ℤ :=
  truncQ (qmul value (qsub (num_categories : ℚ) 1))

/-- Ordering on indices realising `np.argsort(perm)[::-1]`: index `i` precedes
index `j` iff `perm[i] > perm[j]`, or the values tie and `i ≥ j` (a stable
ascending argsort reversed puts equal values in descending index order). -/
def permKeyLE (perm : List ℚ) (i j : ℕ) : Prop :=
  perm.getD j 0 < perm.getD i 0 ∨ (perm.getD i 0 = perm.getD j 0 ∧ j ≤ i)

instance permKeyLE.instDec (perm : List ℚ) : DecidableRel (permKeyLE perm) :=
  fun _ _ => inferInstanceAs (Decidable (_ ∨ _))

/-- `np.argsort(permutation_part)[::-1]` from rule.py, as the unique sort of
`[0, …, n-1]` by descending `(value, index)` key. -/
def argsortDesc (perm : List ℚ) : List ℕ :=
  List.insertionSort (permKeyLE perm) (List.range perm.length)

/-- The loop body of `build_rule`: visit the features in permutation order,
appending an attribute for each feature whose inclusion gate
`solution_part[vector_position] > solution_part[threshold_position]` fires.
(The `is_first_attribute` flag in the source merely re-creates the empty
list on the first append, so accumulation is a plain append.) -/
def decodeLoop (features : List (String × FeatureMeta)) (sp : List ℚ) :
    List ℕ → List Attribute → Except PyErr (List Attribute)
  | [], attributes => .ok attributes
  | i :: rest, attributes =>
    match features[i]? with
    | none => .error .indexError
    | some (feature_name, meta) =>
      let vector_position := feature_position features feature_name
      let threshold_position :=
        if meta.type = "Numerical" then vector_position + 2 else vector_position + 1
      match sp[vector_position]? with
      | none => .error .indexError
      | some v0 =>
        match sp[threshold_position]? with
        | none => .error .indexError
        | some vt =>
          if vt < v0 then
            if meta.type ≠ "Categorical" then
              match sp[vector_position + 1]? with
              | none => .error .indexError
              | some v1 =>
                let b1 := round4 (calculate_border meta v0)
                let b2 := round4 (calculate_border meta v1)
                let border1 := if b2 < b1 then b2 else b1
                let border2 := if b2 < b1 then b1 else b2
                decodeLoop features sp rest
                  (attributes ++ [⟨feature_name, meta.type, border1, border2, "EMPTY"⟩])
            else
              match pythonGet meta.categories
                  (calculate_selected_category v0 meta.categories.length) with
              | .error e => .error e
              | .ok cat =>
                decodeLoop features sp rest
                  (attributes ++ [⟨feature_name, meta.type, 1, 1, cat⟩])
          else
            decodeLoop features sp rest attributes

/-- `solution[-num_features:]` (for `num_features = 0` Python yields the whole
list, since `l[-0:] = l`). -/
def permPart (solution : List ℚ) (features : List (String × FeatureMeta)) : List ℚ :=
  if features.length = 0 then solution else solution.drop (solution.length - features.length)

/-- `solution[:-num_features]` (for `num_features = 0` Python yields `[]`,
since `l[:-0] = l[:0]`). -/
def bodyPart (solution : List ℚ) (features : List (String × FeatureMeta)) : List ℚ :=
  if features.length = 0 then [] else solution.take (solution.length - features.length)

/-- `build_rule` from rule.py. -/
def build_rule (solution : List ℚ) (features : List (String × FeatureMeta)) :
    Except PyErr (List Attribute) :=
  if solution.length < features.length then .error .valueError
  else decodeLoop features (bodyPart solution features) (argsortDesc (permPart solution features)) []

deriving instance DecidableEq for Except

/-- A cell of the transaction table: numeric or string valued. -/
inductive Value where
  | num (q : ℚ)
  | str (s : String)
deriving DecidableEq

/-- One transaction (DataFrame row): the `timestamp` and `interval` columns
plus one named column per feature. -/
structure Row where
  timestamp : ℚ
  interval : ℚ
  data : List (String × Value)
deriving DecidableEq

/-- Does one row satisfy one attribute condition?  Categorical: equality with
the category label (pandas `==` on a mismatched-type cell is `False`);
Numerical: inclusive range membership (pandas raises on a string cell). -/
def rowMatches (a : Attribute) (r : Row) : Except PyErr Bool :=
  if a.type = "Categorical" then
    match r.data.lookup a.feature with
    | none => .error .keyError
    | some v => .ok (decide (v = .str a.category))
  else
    match r.data.lookup a.feature with
    | none => .error .keyError
    | some (.num q) => .ok (decide (a.border1 ≤ q ∧ q ≤ a.border2))
    | some (.str _) => .error .typeError

/-- Boolean-mask filtering `df[mask]` for one attribute condition. -/
def filterRows (a : Attribute) : List Row → Except PyErr (List Row)
  | [] => .ok []
  | r :: rest => do
    let b ← rowMatches a r
    let rs ← filterRows a rest
    if b then .ok (r :: rs) else .ok rs

/-- Apply a list of antecedent/consequent conditions in order; conditions of
a type other than Categorical/Numerical fall through the if/elif and filter
nothing. -/
def applyConds : List Attribute → List Row → Except PyErr (List Row)
  | [], rows => .ok rows
  | c :: rest, rows =>
    if c.type = "Categorical" ∨ c.type = "Numerical" then do
      let rows2 ← filterRows c rows
      applyConds rest rows2
    else applyConds rest rows

/-- The time-window filter at the top of each ratio metric:
`df[(df[col] >= start) & (df[col] <= end)]` with `col` chosen by
`use_interval`. -/
def windowFilter (df : List Row) (start end_ : ℚ) (use_interval : Bool) : List Row :=
  df.filter fun r =>
    let t := if use_interval then r.interval else r.timestamp
    decide (start ≤ t ∧ t ≤ end_)

/-- `calculate_support` from metrics.py.  Note the guard on the final line of
the source tests `len(df) > 0` (the unfiltered table), not the windowed
count used as the denominator; a zero windowed count on a nonempty table is
a `ZeroDivisionError`. -/
def calculate_support (df : List Row) (antecedents consequents : List Attribute)
    (start end_ : ℚ) (use_interval : Bool) : Except PyErr ℚ :=
  let df_filtered := windowFilter df start end_ use_interval
  let filtered := df_filtered.length
  match applyConds antecedents df_filtered with
  | .error e => .error e
  | .ok df2 =>
    match applyConds consequents df2 with
    | .error e => .error e
    | .ok df3 =>
      if 0 < df.length then
        if filtered = 0 then .error .divByZero
        else .ok ((df3.length : ℚ) / (filtered : ℚ))
      else .ok 0

/-- `calculate_inclusion_metric` from metrics.py: the two per-list *sets* of
feature names are modelled by `List.dedup`; their sizes are summed (so a
name occurring in both lists counts twice, but repeats inside one list
count once). -/
def calculate_inclusion_metric (features : List (String × FeatureMeta))
    (antecedents consequents : List Attribute) : Except PyErr ℚ :=
  let all_dataset_features := features.length
  let antecedent_features := (antecedents.map (fun (a : Attribute) => a.feature)).dedup
  let consequent_features := (consequents.map (fun (a : Attribute) => a.feature)).dedup
  let common_features := consequent_features.length + antecedent_features.length
  if common_features = 0 then .ok 0
  else if all_dataset_features = 0 then .error .divByZero
  else .ok ((common_features : ℚ) / (all_dataset_features : ℚ))

/-- The accumulation loop of `calculate_amplitude_metric`: total normalized
range and count of the attributes of type Numerical (a missing registry
entry is a `KeyError`). -/
def amplitudeScan (features : List (String × FeatureMeta)) :
    List Attribute → Except PyErr (ℚ × ℕ)
  | [] => .ok (0, 0)
  | a :: rest =>
    if a.type = "Numerical" then
      match features.lookup a.feature with
      | none => .error .keyError
      | some m =>
        match amplitudeScan features rest with
        | .error e => .error e
        | .ok (total, n) =>
          .ok (total +
            (if m.max ≠ m.min then (a.border2 - a.border1) / (m.max - m.min) else 0), n + 1)
    else amplitudeScan features rest

/-- `calculate_amplitude_metric` from metrics.py. -/
def calculate_amplitude_metric (features : List (String × FeatureMeta))
    (antecedents consequents : List Attribute) : Except PyErr ℚ :=
  match amplitudeScan features (antecedents ++ consequents) with
  | .error e => .error e
  | .ok (total_range, n) => if n = 0 then .ok 0 else .ok (1 - total_range / (n : ℚ))

/-- `calculate_fitness` from metrics.py. -/
def calculate_fitness (supp conf incl : ℚ) (alpha beta delta : ℚ) : ℚ :=
  ((alpha * supp) + (beta * conf) + (delta * incl)) / 3

/-
Concrete inputs used by individual claims (each group belongs to one claim).
-/

/-- C1, Scenario A registry: numerical `x` over `[0,10]`, then categorical
`y` with labels `a`, `b`. -/
def featsC1 : List (String × FeatureMeta) :=
  [("x", ⟨"Numerical", 0, 10, []⟩), ("y", ⟨"Categorical", 0, 0, ["a", "b"]⟩)]

/-- C1, Scenario A solution vector: body `[0.9, 0.2, 0.8, 0.9, 0.4]`,
permutation `[0.1, 0.9]`. -/
def solC1 : List ℚ :=
  [mkRat 9 10, mkRat 2 10, mkRat 8 10, mkRat 9 10, mkRat 4 10, mkRat 1 10, mkRat 9 10]

/-- C2 registry: one categorical feature with three labels. -/
def featsC2 : List (String × FeatureMeta) :=
  [("c", ⟨"Categorical", 0, 0, ["p", "q", "r"]⟩)]

/-- C2 solution: body `[0.9, 0.1]`, permutation `[0.5]`. -/
def solC2 : List ℚ := [mkRat 9 10, mkRat 1 10, mkRat 1 2]

/-- C3: a one-row table whose timestamp and interval are both 5. -/
def dfC3 : List Row := [⟨5, 5, []⟩]

/-- C3: a second one-row table (for the witness) at time 7. -/
def dfC3w : List Row := [⟨7, 7, []⟩]

/-- C4 registry: two numerical features. -/
def featsC4 : List (String × FeatureMeta) :=
  [("f0", ⟨"Numerical", 0, 1, []⟩), ("f1", ⟨"Numerical", 0, 1, []⟩)]

/-- C4 solution: bodies `[0.9, 0.5, 0.1]` and `[0.8, 0.3, 0.2]`, permutation
`[0.5, 0.5]` (a tie). -/
def solC4 : List ℚ :=
  [mkRat 9 10, mkRat 1 2, mkRat 1 10, mkRat 4 5, mkRat 3 10, mkRat 1 5, mkRat 1 2, mkRat 1 2]

/-- C5 registry: two numerical features `a`, `b`. -/
def featsC5 : List (String × FeatureMeta) :=
  [("a", ⟨"Numerical", 0, 1, []⟩), ("b", ⟨"Numerical", 0, 1, []⟩)]

/-- C5: an attribute on feature `a`. -/
def attrC5 : Attribute := ⟨"a", "Numerical", 0, 1, "EMPTY"⟩

/-- C5: an attribute on feature `b`. -/
def attrC5b : Attribute := ⟨"b", "Numerical", 0, 1, "EMPTY"⟩

/-- C7 registry: one numerical feature over `[0,10]`. -/
def featsC7 : List (String × FeatureMeta) := [("x", ⟨"Numerical", 0, 10, []⟩)]

/-- C7 solution: body `[0.9, 0.2, 0.8]`, permutation `[0.5]`. -/
def solC7 : List ℚ := [mkRat 9 10, mkRat 2 10, mkRat 8 10, mkRat 1 2]

/-- C10 registry: one numerical feature over `[0,10]`. -/
def featsC10 : List (String × FeatureMeta) := [("x", ⟨"Numerical", 0, 10, []⟩)]

/-- C10: an attribute with interval `[2,8]`. -/
def attrC10 : Attribute := ⟨"x", "Numerical", 2, 8, "EMPTY"⟩

/-- C10: the same attribute narrowed to `[3,5]`. -/
def attrC10n : Attribute := ⟨"x", "Numerical", 3, 5, "EMPTY"⟩

/-
Helper definitions and lemmas shared by several claims.
-/

/-- Shape of every attribute the decoder loop emits: its metadata sits at some
registry index, and its fields are computed from the body slots at
`feature_position` (and the next slot), exactly as `build_rule` does. -/
def GoodAttr (features : List (String × FeatureMeta)) (sp : List ℚ) (a : Attribute) : Prop :=
  ∃ (i : ℕ) (meta : FeatureMeta), features[i]? = some (a.feature, meta) ∧ a.type = meta.type ∧
    (if meta.type = "Categorical" then
      a.border1 = 1 ∧ a.border2 = 1 ∧
      ∃ v0, sp[feature_position features a.feature]? = some v0 ∧
        pythonGet meta.categories
          (calculate_selected_category v0 meta.categories.length) = .ok a.category
    else
      ∃ v0 v1, sp[feature_position features a.feature]? = some v0 ∧
        sp[feature_position features a.feature + 1]? = some v1 ∧
        a.border1 = min (round4 (calculate_border meta v0)) (round4 (calculate_border meta v1)) ∧
        a.border2 = max (round4 (calculate_border meta v0)) (round4 (calculate_border meta v1)) ∧
        a.category = "EMPTY")

/-- `qadd` is rational addition. -/
theorem qadd_eq (a b : ℚ) : qadd a b = a + b :=
  (Rat.add_def' a b).symm

/-- `qsub` is rational subtraction. -/
theorem qsub_eq (a b : ℚ) : qsub a b = a - b :=
  (Rat.sub_def' a b).symm

/-- `qmul` is rational multiplication. -/
theorem qmul_eq (a b : ℚ) : qmul a b = a * b := by
  rw [qmul, Rat.mul_def, Rat.normalize_eq_mkRat]

/-- `calculate_border` is the linear rescale `min + (max − min)·value`. -/
theorem calculate_border_eq (feature_meta : FeatureMeta) (value : ℚ) :
    calculate_border feature_meta value =
      feature_meta.min + (feature_meta.max - feature_meta.min) * value := by
  rw [calculate_border, qadd_eq, qmul_eq, qsub_eq]

/-- `calculate_selected_category` is `int(value · (num_categories − 1))`. -/
theorem calculate_selected_category_eq (value : ℚ) (num_categories : ℕ) :
    calculate_selected_category value num_categories =
      truncQ (value * ((num_categories : ℚ) - 1)) := by
  rw [calculate_selected_category, qmul_eq, qsub_eq]

/-- `roundHalfEven` in terms of the ring subtraction. -/
theorem roundHalfEven_eq (q : ℚ) : roundHalfEven q =
    (if q - ratFloor q < mkRat 1 2 then ratFloor q
    else if mkRat 1 2 < q - ratFloor q then ratFloor q + 1
    else if ratFloor q % 2 = 0 then ratFloor q else ratFloor q + 1) := by
  rw [roundHalfEven, qsub_eq]

/-- `ratFloor` is the floor function on `ℚ`. -/
theorem ratFloor_eq (q : ℚ) : ratFloor q = ⌊q⌋ := by
  rw [ratFloor, Rat.floor_def]
  exact Int.fdiv_eq_ediv _ (Int.natCast_nonneg _)

/-- `ratCeil` is the ceiling function on `ℚ`. -/
theorem ratCeil_eq (q : ℚ) : ratCeil q = ⌈q⌉ := by
  rw [ratCeil, ratFloor_eq, Int.floor_neg, neg_neg]

/-- `round4` is division of the scaled-and-rounded value by `10⁴`. -/
theorem round4_eq (q : ℚ) : round4 q = (roundHalfEven (q * 10000) : ℚ) / 10000 := by
  rw [round4, qmul_eq, Rat.mkRat_eq_divInt, Rat.divInt_eq_div]
  norm_num

theorem decodeLoop_pres (features : List (String × FeatureMeta)) (sp : List ℚ) :
    ∀ (idxs : List ℕ) (acc out : List Attribute),
      decodeLoop features sp idxs acc = .ok out →
      (∀ a ∈ acc, GoodAttr features sp a) →
      ∀ a ∈ out, GoodAttr features sp a := by
  intro idxs
  induction idxs with
  | nil =>
    intro acc out h hacc a ha
    simp only [decodeLoop] at h
    cases h
    exact hacc a ha
  | cons i rest ih =>
    intro acc out h hacc a ha
    simp only [decodeLoop] at h
    split at h
    · cases h
    · rename_i nm feature_name meta hfi
      split at h
      · cases h
      · rename_i v0 hv0
        split at h
        · cases h
        · rename_i vt hvt
          split at h
          · rename_i hgate
            split at h
            · rename_i hcat
              split at h
              · cases h
              · rename_i v1 hv1
                refine ih _ _ h ?_ a ha
                intro b hb
                rcases List.mem_append.mp hb with hb | hb
                · exact hacc b hb
                · rcases List.mem_singleton.mp hb with rfl
                  refine ⟨i, meta, hfi, rfl, ?_⟩
                  rw [if_neg hcat]
                  refine ⟨v0, v1, hv0, hv1, ?_, ?_, rfl⟩
                  · show (if round4 (calculate_border meta v1) < round4 (calculate_border meta v0)
                        then round4 (calculate_border meta v1)
                        else round4 (calculate_border meta v0)) = _
                    rcases lt_or_le (round4 (calculate_border meta v1))
                        (round4 (calculate_border meta v0)) with hlt | hle
                    · rw [if_pos hlt, min_eq_right hlt.le]
                    · rw [if_neg (not_lt.mpr hle), min_eq_left hle]
                  · show (if round4 (calculate_border meta v1) < round4 (calculate_border meta v0)
                        then round4 (calculate_border meta v0)
                        else round4 (calculate_border meta v1)) = _
                    rcases lt_or_le (round4 (calculate_border meta v1))
                        (round4 (calculate_border meta v0)) with hlt | hle
                    · rw [if_pos hlt, max_eq_left hlt.le]
                    · rw [if_neg (not_lt.mpr hle), max_eq_right hle]
            · rename_i hcat
              rw [not_not] at hcat
              split at h
              · cases h
              · rename_i cat hpg
                refine ih _ _ h ?_ a ha
                intro b hb
                rcases List.mem_append.mp hb with hb | hb
                · exact hacc b hb
                · rcases List.mem_singleton.mp hb with rfl
                  refine ⟨i, meta, hfi, rfl, ?_⟩
                  rw [if_pos hcat]
                  exact ⟨rfl, rfl, v0, hv0, hpg⟩
          · exact ih _ _ h hacc a ha

/-- Every attribute in a successful `build_rule` output is emitted by the
decoder loop from the body segment. -/
theorem build_rule_good (solution : List ℚ) (features : List (String × FeatureMeta))
    (out : List Attribute) (h : build_rule solution features = .ok out) :
    ∀ a ∈ out, GoodAttr features (bodyPart solution features) a := by
  unfold build_rule at h
  by_cases hlen : solution.length < features.length
  · rw [if_pos hlen] at h; cases h
  · rw [if_neg hlen] at h
    intro a ha
    exact decodeLoop_pres features (bodyPart solution features) _ [] out h (by simp) a ha

theorem applyConds_nil (conds : List Attribute) : applyConds conds [] = .ok [] := by
  induction conds with
  | nil => rfl
  | cons c rest ih =>
    simp only [applyConds]
    split
    · show (do
        let rows2 ← filterRows c []
        applyConds rest rows2) = .ok []
      simpa [filterRows] using ih
    · exact ih


/-
Claim theorems.
-/

/-- Claim C1 (counterexample): on Scenario A (`x ∈ [0,10]`, body slots
`[0.9, 0.2, 0.8]`) the decoder emits `x` with `border1 = 2.0` but
`border2 = 9.0`, not `8.0` as the claim states — the border candidates come
from body slots `offset` and `offset+1`, so the inclusion-threshold slot
`0.9` is itself rescaled to `9.0`. -/
theorem C1_counterexample :
    build_rule solC1 featsC1 =
      .ok [⟨"y", "Categorical", 1, 1, "a"⟩, ⟨"x", "Numerical", 2, 9, "EMPTY"⟩] ∧
    ∀ a ∈ [(⟨"y", "Categorical", 1, 1, "a"⟩ : Attribute), ⟨"x", "Numerical", 2, 9, "EMPTY"⟩],
      a.feature = "x" → ¬ a.border2 = 8 := by
  constructor
  · decide
  · decide

/-- Claim C1 (amended): for every included numerical/timestamp feature the
decoder rescales the body slots at `offset` and `offset+1` (not `offset+1`
and `offset+2`), rounds each to 4 decimal digits, and orders the pair; on
Scenario A this yields `border1 = 2.0`, `border2 = 9.0`. -/
theorem C1_amended (solution : List ℚ) (features : List (String × FeatureMeta))
    (out : List Attribute) (a : Attribute)
    (h : build_rule solution features = .ok out) (ha : a ∈ out)
    (hnum : a.type ≠ "Categorical") :
    ∃ (i : ℕ) (meta : FeatureMeta) (v0 v1 : ℚ),
      features[i]? = some (a.feature, meta) ∧
      (bodyPart solution features)[feature_position features a.feature]? = some v0 ∧
      (bodyPart solution features)[feature_position features a.feature + 1]? = some v1 ∧
      a.border1 = min (round4 (calculate_border meta v0)) (round4 (calculate_border meta v1)) ∧
      a.border2 = max (round4 (calculate_border meta v0)) (round4 (calculate_border meta v1)) ∧
      a.category = "EMPTY" := by
  obtain ⟨i, meta, hfi, htype, hrest⟩ := build_rule_good solution features out h a ha
  rw [htype] at hnum
  rw [if_neg hnum] at hrest
  obtain ⟨v0, v1, hv0, hv1, hb1, hb2, hcat⟩ := hrest
  exact ⟨i, meta, v0, v1, hfi, hv0, hv1, hb1, hb2, hcat⟩

/-- Claim C1 (witness): the amended characterization instantiated at the `x`
attribute Scenario A produces. -/
theorem C1_witness :
    ∃ (i : ℕ) (meta : FeatureMeta) (v0 v1 : ℚ),
      featsC1[i]? = some ((⟨"x", "Numerical", 2, 9, "EMPTY"⟩ : Attribute).feature, meta) ∧
      (bodyPart solC1 featsC1)[feature_position featsC1
        (⟨"x", "Numerical", 2, 9, "EMPTY"⟩ : Attribute).feature]? = some v0 ∧
      (bodyPart solC1 featsC1)[feature_position featsC1
        (⟨"x", "Numerical", 2, 9, "EMPTY"⟩ : Attribute).feature + 1]? = some v1 ∧
      (⟨"x", "Numerical", 2, 9, "EMPTY"⟩ : Attribute).border1 =
        min (round4 (calculate_border meta v0)) (round4 (calculate_border meta v1)) ∧
      (⟨"x", "Numerical", 2, 9, "EMPTY"⟩ : Attribute).border2 =
        max (round4 (calculate_border meta v0)) (round4 (calculate_border meta v1)) ∧
      (⟨"x", "Numerical", 2, 9, "EMPTY"⟩ : Attribute).category = "EMPTY" :=
  C1_amended solC1 featsC1
    [⟨"y", "Categorical", 1, 1, "a"⟩, ⟨"x", "Numerical", 2, 9, "EMPTY"⟩]
    ⟨"x", "Numerical", 2, 9, "EMPTY"⟩ (by decide) (by decide) (by decide)

/-- Claim C2 (counterexample): with categories `p,q,r` and body `[0.9, 0.1]`
the code selects `int(0.9·2) = 1 → "q"` from the slot at `offset`, while
the claim's formula `floor(body[offset+1]·2) = floor(0.1·2) = 0` would
select `"p"`. -/
theorem C2_counterexample :
    build_rule solC2 featsC2 = .ok [⟨"c", "Categorical", 1, 1, "q"⟩] ∧
    ("q" : String) ≠ "p" := by
  constructor
  · decide
  · decide

/-- Claim C2 (amended): for every included categorical feature the category
index is `int(body[offset]·(num_categories−1))` — computed from the
inclusion-threshold slot itself, not the slot at `offset+1` — and the
emitted attribute has `border1 = border2 = 1.0` and `category` the label at
that index (with Python's negative-index wrap-around semantics). -/
theorem C2_amended (solution : List ℚ) (features : List (String × FeatureMeta))
    (out : List Attribute) (a : Attribute)
    (h : build_rule solution features = .ok out) (ha : a ∈ out)
    (hcat : a.type = "Categorical") :
    a.border1 = 1 ∧ a.border2 = 1 ∧
    ∃ (i : ℕ) (meta : FeatureMeta) (v0 : ℚ),
      features[i]? = some (a.feature, meta) ∧
      (bodyPart solution features)[feature_position features a.feature]? = some v0 ∧
      pythonGet meta.categories
        (calculate_selected_category v0 meta.categories.length) = .ok a.category := by
  obtain ⟨i, meta, hfi, htype, hrest⟩ := build_rule_good solution features out h a ha
  rw [htype] at hcat
  rw [if_pos hcat] at hrest
  obtain ⟨hb1, hb2, v0, hv0, hpg⟩ := hrest
  exact ⟨hb1, hb2, i, meta, v0, hfi, hv0, hpg⟩

/-- Claim C2 (witness): the amended characterization instantiated at the
attribute decoded from `featsC2`/`solC2`. -/
theorem C2_witness :
    (⟨"c", "Categorical", 1, 1, "q"⟩ : Attribute).border1 = 1 ∧
    (⟨"c", "Categorical", 1, 1, "q"⟩ : Attribute).border2 = 1 ∧
    ∃ (i : ℕ) (meta : FeatureMeta) (v0 : ℚ),
      featsC2[i]? = some ((⟨"c", "Categorical", 1, 1, "q"⟩ : Attribute).feature, meta) ∧
      (bodyPart solC2 featsC2)[feature_position featsC2
        (⟨"c", "Categorical", 1, 1, "q"⟩ : Attribute).feature]? = some v0 ∧
      pythonGet meta.categories
        (calculate_selected_category v0 meta.categories.length) =
          .ok (⟨"c", "Categorical", 1, 1, "q"⟩ : Attribute).category :=
  C2_amended solC2 featsC2 [⟨"c", "Categorical", 1, 1, "q"⟩]
    ⟨"c", "Categorical", 1, 1, "q"⟩ (by decide) (by decide) (by decide)

/-- Claim C6: a solution vector whose length passes the `len < #features`
check but is shorter than the full expected `3·#num + 2·#cat + #features`
slots makes `build_rule` fail with an out-of-range index access (not the
length-mismatch `ValueError`): here one numerical feature and a length-1
vector. -/
theorem C6_partial_vector_index_error :
    ¬ ([mkRat 1 2].length < [("x", (⟨"Numerical", 0, 1, []⟩ : FeatureMeta))].length) ∧
    [mkRat 1 2].length < 3 * 1 + 2 * 0 + 1 ∧
    build_rule [mkRat 1 2] [("x", ⟨"Numerical", 0, 1, []⟩)] = .error .indexError := by
  refine ⟨by decide, by decide, by decide⟩

/-- Claim C7: every numerical/timestamp attribute in any successful decoder
output has `border1 ≤ border2` (the decoder sorts the two rounded border
candidates before emitting). -/
theorem C7_border_ordering (solution : List ℚ) (features : List (String × FeatureMeta))
    (out : List Attribute) (a : Attribute)
    (h : build_rule solution features = .ok out) (ha : a ∈ out)
    (htype : a.type = "Numerical" ∨ a.type = "Timestamp") :
    a.border1 ≤ a.border2 := by
  obtain ⟨i, meta, hfi, hty, hrest⟩ := build_rule_good solution features out h a ha
  have hnc : ¬ meta.type = "Categorical" := by
    rw [← hty]
    rcases htype with h1 | h1 <;> rw [h1] <;> decide
  rw [if_neg hnc] at hrest
  obtain ⟨v0, v1, _, _, hb1, hb2, _⟩ := hrest
  rw [hb1, hb2]
  exact min_le_max

/-- Claim C7 (witness): the border-ordering theorem applied to the numerical
attribute decoded from `featsC7`/`solC7`. -/
theorem C7_witness : (⟨"x", "Numerical", 2, 9, "EMPTY"⟩ : Attribute).border1 ≤
    (⟨"x", "Numerical", 2, 9, "EMPTY"⟩ : Attribute).border2 :=
  C7_border_ordering solC7 featsC7
    [⟨"x", "Numerical", 2, 9, "EMPTY"⟩] ⟨"x", "Numerical", 2, 9, "EMPTY"⟩
    (by decide) (by decide) (by decide)

/-- Claim C8: for any registry with at least one feature, decoding a vector
shorter than the feature count raises the length-mismatch `ValueError` and
produces no attribute list. -/
theorem C8_length_validation (features : List (String × FeatureMeta)) (solution : List ℚ)
    (_hfeat : 1 ≤ features.length) (hlen : solution.length < features.length) :
    build_rule solution features = .error .valueError := by
  unfold build_rule
  rw [if_pos hlen]

/-- Claim C8 (witness): the length-validation theorem applied to an empty
vector and a one-feature registry. -/
theorem C8_witness : build_rule [] [("x", ⟨"Numerical", 0, 1, []⟩)] = .error .valueError :=
  C8_length_validation [("x", ⟨"Numerical", 0, 1, []⟩)] [] (by decide) (by decide)

/-- Claim C9: `calculate_fitness` is `((α·supp) + (β·conf) + (δ·incl)) / 3`
with the divisor fixed at 3 for all weights; in particular with
`α=β=1, δ=0, supp=0.5, conf=0.8` the result is `13/30 = 0.4333…`,
independent of the inclusion value. -/
theorem C9_fitness_formula :
    (∀ supp conf incl alpha beta delta : ℚ,
      calculate_fitness supp conf incl alpha beta delta =
        ((alpha * supp) + (beta * conf) + (delta * incl)) / 3) ∧
    (∀ incl : ℚ, calculate_fitness (1/2) (4/5) incl 1 1 0 = 13/30) := by
  constructor
  · intro supp conf incl alpha beta delta
    rfl
  · intro incl
    unfold calculate_fitness
    norm_num

/-- Claim C3 (counterexample): on a nonempty one-row table whose row lies
outside the `[0,1]` interval window, `calculate_support` reaches the
division with a zero windowed count and raises `ZeroDivisionError` instead
of returning the sentinel 0. -/
theorem C3_counterexample :
    calculate_support dfC3 [] [] 0 1 true = .error .divByZero := by
  decide

/-- Claim C3 (amended): `calculate_support` guards only on the *unfiltered*
table being empty (returning 0 then); when the table is nonempty but the
time window selects zero rows, the denominator is zero and the function
raises `ZeroDivisionError` rather than returning a sentinel. -/
theorem C3_support_guard (df : List Row) (antecedents consequents : List Attribute)
    (start end_ : ℚ) (use_interval : Bool) :
    (df = [] → calculate_support df antecedents consequents start end_ use_interval = .ok 0) ∧
    (df ≠ [] → windowFilter df start end_ use_interval = [] →
      calculate_support df antecedents consequents start end_ use_interval =
        .error .divByZero) := by
  constructor
  · intro h
    subst h
    have hw : windowFilter [] start end_ use_interval = [] := rfl
    simp only [calculate_support, hw, applyConds_nil, List.length_nil, lt_irrefl, if_false]
  · intro hne hw
    have hlen : 0 < df.length := List.length_pos.mpr hne
    simp only [calculate_support, hw, applyConds_nil, List.length_nil, if_pos hlen, if_true,
      eq_self_iff_true]

/-- Claim C3 (witness): the amended guard theorem instantiated at an empty
table and at a nonempty table with an empty window. -/
theorem C3_witness :
    calculate_support [] [] [] 0 1 true = .ok 0 ∧
    calculate_support dfC3w [] [] 0 1 false = .error .divByZero :=
  ⟨(C3_support_guard [] [] [] 0 1 true).1 rfl,
    (C3_support_guard dfC3w [] [] 0 1 false).2 (by decide) (by decide)⟩

/-- Claim C4 (counterexample): with two included numerical features whose
permutation values tie at `0.5`, the decoder visits feature index 1 before
feature index 0 (argsort ascending is stable, and the `[::-1]` reversal
turns ascending tie order into descending), contradicting the claimed
ascending-index tie-break. -/
theorem C4_counterexample :
    permPart solC4 featsC4 = [mkRat 1 2, mkRat 1 2] ∧
    build_rule solC4 featsC4 =
      .ok [⟨"f1", "Numerical", mkRat 3 10, mkRat 4 5, "EMPTY"⟩,
        ⟨"f0", "Numerical", mkRat 1 2, mkRat 9 10, "EMPTY"⟩] ∧
    ("f1" : String) ≠ "f0" := by
  refine ⟨by decide, by decide, by decide⟩

/-- Claim C4 (amended): the visiting order is the feature indices sorted on
permutation values in descending order with ties broken by *descending*
index (equivalently: a stable ascending argsort, then reversed); it is a
permutation of `0..n-1` that is strictly sorted by the descending
`(value, index)` key. -/
theorem C4_visiting_order (perm : List ℚ) :
    List.Perm (argsortDesc perm) (List.range perm.length) ∧
    (argsortDesc perm).Pairwise (fun i j =>
      perm.getD j 0 < perm.getD i 0 ∨ (perm.getD i 0 = perm.getD j 0 ∧ j < i)) := by
  haveI htot : IsTotal ℕ (permKeyLE perm) := ⟨by
    intro i j
    unfold permKeyLE
    rcases lt_trichotomy (perm.getD i 0) (perm.getD j 0) with h | h | h
    · exact .inr (.inl h)
    · rcases le_total j i with hj | hj
      · exact .inl (.inr ⟨h, hj⟩)
      · exact .inr (.inr ⟨h.symm, hj⟩)
    · exact .inl (.inl h)⟩
  haveI htr : IsTrans ℕ (permKeyLE perm) := ⟨by
    intro a b c hab hbc
    unfold permKeyLE at hab hbc ⊢
    rcases hab with hab | ⟨hab, hba⟩
    · rcases hbc with hbc | ⟨hbc, hcb⟩
      · exact .inl (hbc.trans hab)
      · exact .inl (lt_of_eq_of_lt hbc.symm hab)
    · rcases hbc with hbc | ⟨hbc, hcb⟩
      · exact .inl (lt_of_lt_of_eq hbc hab.symm)
      · exact .inr ⟨hab.trans hbc, hcb.trans hba⟩⟩
  constructor
  · exact List.perm_insertionSort _ _
  · have hs : (argsortDesc perm).Pairwise (permKeyLE perm) :=
      List.sorted_insertionSort (permKeyLE perm) (List.range perm.length)
    have hnd : (argsortDesc perm).Nodup :=
      ((List.perm_insertionSort (permKeyLE perm) (List.range perm.length)).symm).nodup
        (List.nodup_range _)
    refine (hs.and hnd).imp ?_
    intro i j hij
    obtain ⟨hr, hne⟩ := hij
    rcases hr with h | ⟨he, hle⟩
    · exact .inl h
    · exact .inr ⟨he, lt_of_le_of_ne hle (Ne.symm hne)⟩

/-- Claim C5 (counterexample): with two dataset features and an antecedent
list naming feature `a` twice, the inclusion metric is `1/2` (the set of
antecedent features has one element), not `(2+0)/2 = 1` as per-occurrence
counting would give. -/
theorem C5_counterexample :
    calculate_inclusion_metric featsC5 [attrC5, attrC5] [] = .ok ((1 : ℚ)/2) ∧
    ((1 : ℚ)/2) ≠ (2 + 0)/2 := by
  constructor
  · rfl
  · norm_num

/-- Claim C5 (amended): the inclusion metric is
`(|set of antecedent features| + |set of consequent features|) / |features|`
— a feature named in both lists counts twice, but duplicate occurrences
inside one list count once (each list is collapsed to a set), and the
result is 0 when both lists are empty; duplicating an antecedent never
changes the metric. -/
theorem C5_inclusion_sets (features : List (String × FeatureMeta))
    (antecedents consequents : List Attribute) (a : Attribute) :
    (features.length ≠ 0 →
      calculate_inclusion_metric features antecedents consequents =
        .ok ((((consequents.map (fun (x : Attribute) => x.feature)).dedup.length +
          (antecedents.map (fun (x : Attribute) => x.feature)).dedup.length : ℕ) : ℚ) /
          (features.length : ℚ))) ∧
    (calculate_inclusion_metric features (a :: a :: antecedents) consequents =
      calculate_inclusion_metric features (a :: antecedents) consequents) := by
  constructor
  · intro hlen
    simp only [calculate_inclusion_metric]
    by_cases hc : (consequents.map (fun (x : Attribute) => x.feature)).dedup.length +
        (antecedents.map (fun (x : Attribute) => x.feature)).dedup.length = 0
    · rw [if_pos hc, hc]
      norm_num
    · rw [if_neg hc, if_neg hlen]
  · have hd : ((a :: a :: antecedents).map (fun (x : Attribute) => x.feature)).dedup =
        ((a :: antecedents).map (fun (x : Attribute) => x.feature)).dedup := by
      simp only [List.map_cons]
      rw [List.dedup_cons_of_mem (List.mem_cons_self _ _)]
    simp only [calculate_inclusion_metric, hd]

/-- Claim C5 (witness): the amended formula instantiated with one antecedent
and one consequent on distinct features (each set has one element, total
`2/2`), and the duplication-invariance at a concrete list. -/
theorem C5_witness :
    calculate_inclusion_metric featsC5 [attrC5] [attrC5b] = .ok ((2 : ℚ)/2) ∧
    calculate_inclusion_metric featsC5 [attrC5b, attrC5b] [] =
      calculate_inclusion_metric featsC5 [attrC5b] [] := by
  constructor
  · have h := (C5_inclusion_sets featsC5 [attrC5] [attrC5b] attrC5).1 (by decide)
    rw [h]
    norm_num [featsC5]
  · exact (C5_inclusion_sets featsC5 [attrC5b] [] attrC5b).2

/-- Replacing one numerical attribute by one with the same feature and a
narrower interval leaves the numerical-attribute count of the amplitude
scan unchanged, does not increase the accumulated total, and the count is
at least 1. -/
theorem amplitudeScan_narrow (features : List (String × FeatureMeta)) (a a' : Attribute)
    (hmm : ∀ nm m, features.lookup nm = some m → m.min ≤ m.max)
    (ha : a.type = "Numerical") (ha' : a'.type = "Numerical") (hf : a'.feature = a.feature)
    (h1 : a.border1 ≤ a'.border1) (h3 : a'.border2 ≤ a.border2) :
    ∀ (p1 p2 : List Attribute) (t t' : ℚ) (n n' : ℕ),
      amplitudeScan features (p1 ++ a :: p2) = .ok (t, n) →
      amplitudeScan features (p1 ++ a' :: p2) = .ok (t', n') →
      n' = n ∧ t' ≤ t ∧ 1 ≤ n := by
  intro p1
  induction p1 with
  | nil =>
    intro p2 t t' n n' hL hR
    simp only [List.nil_append, amplitudeScan] at hL hR
    rw [if_pos ha] at hL
    rw [if_pos ha', hf] at hR
    cases hlk : features.lookup a.feature with
    | none => rw [hlk] at hL; cases hL
    | some m =>
      rw [hlk] at hL hR
      cases hs : amplitudeScan features p2 with
      | error e => rw [hs] at hL; cases hL
      | ok tn =>
        obtain ⟨t2, n2⟩ := tn
        rw [hs] at hL hR
        simp only [Except.ok.injEq, Prod.mk.injEq] at hL hR
        obtain ⟨hLt, hLn⟩ := hL
        obtain ⟨hRt, hRn⟩ := hR
        subst hLt hLn hRt hRn
        refine ⟨rfl, ?_, Nat.le_add_left 1 n2⟩
        have hterm : (if m.max ≠ m.min then (a'.border2 - a'.border1) / (m.max - m.min) else 0) ≤
            (if m.max ≠ m.min then (a.border2 - a.border1) / (m.max - m.min) else 0) := by
          by_cases hme : m.max = m.min
          · rw [if_neg (not_not.mpr hme), if_neg (not_not.mpr hme)]
          · rw [if_pos hme, if_pos hme]
            have hd : (0 : ℚ) < m.max - m.min :=
              sub_pos.mpr (lt_of_le_of_ne (hmm a.feature m hlk) (Ne.symm hme))
            exact (div_le_div_iff_of_pos_right hd).mpr (sub_le_sub h3 h1)
        exact add_le_add_left hterm t2
  | cons x p1' ih =>
    intro p2 t t' n n' hL hR
    simp only [List.cons_append, amplitudeScan, List.append_eq] at hL hR
    by_cases hx : x.type = "Numerical"
    · rw [if_pos hx] at hL hR
      cases hlk : features.lookup x.feature with
      | none => rw [hlk] at hL; cases hL
      | some m =>
        rw [hlk] at hL hR
        cases hsL : amplitudeScan features (p1' ++ a :: p2) with
        | error e => rw [hsL] at hL; cases hL
        | ok uk =>
          obtain ⟨u, k⟩ := uk
          rw [hsL] at hL
          cases hsR : amplitudeScan features (p1' ++ a' :: p2) with
          | error e => rw [hsR] at hR; cases hR
          | ok uk' =>
            obtain ⟨u', k'⟩ := uk'
            rw [hsR] at hR
            obtain ⟨hkk, huu, hk1⟩ := ih p2 u u' k k' hsL hsR
            simp only [Except.ok.injEq, Prod.mk.injEq] at hL hR
            obtain ⟨hLt, hLn⟩ := hL
            obtain ⟨hRt, hRn⟩ := hR
            subst hLt hLn hRt hRn
            subst hkk
            exact ⟨rfl, add_le_add_right huu _, Nat.le_succ_of_le hk1⟩
    · rw [if_neg hx] at hL hR
      exact ih p2 t t' n n' hL hR

/-- Claim C10: when every feature in the registry has `min ≤ max`, replacing
one numerical attribute's interval by a sub-interval (same feature, all
other attributes fixed) never decreases the value returned by
`calculate_amplitude_metric`. -/
theorem C10_amplitude_monotone (features : List (String × FeatureMeta))
    (p1 p2 antecedents consequents antecedents2 consequents2 : List Attribute)
    (a a' : Attribute) (q q' : ℚ)
    (hmm : ∀ nm m, features.lookup nm = some m → m.min ≤ m.max)
    (ha : a.type = "Numerical") (ha' : a'.type = "Numerical") (hf : a'.feature = a.feature)
    (h1 : a.border1 ≤ a'.border1) (_h2 : a'.border1 ≤ a'.border2) (h3 : a'.border2 ≤ a.border2)
    (hsplit : antecedents ++ consequents = p1 ++ a :: p2)
    (hsplit2 : antecedents2 ++ consequents2 = p1 ++ a' :: p2)
    (hq : calculate_amplitude_metric features antecedents consequents = .ok q)
    (hq' : calculate_amplitude_metric features antecedents2 consequents2 = .ok q') :
    q ≤ q' := by
  unfold calculate_amplitude_metric at hq hq'
  rw [hsplit] at hq
  rw [hsplit2] at hq'
  split at hq
  · cases hq
  · rename_i t n hs
    split at hq'
    · cases hq'
    · rename_i t' n' hs'
      obtain ⟨hnn, htt, hn1⟩ :=
        amplitudeScan_narrow features a a' hmm ha ha' hf h1 h3 p1 p2 t t' n n' hs hs'
      have hn0 : ¬ n = 0 := by omega
      rw [if_neg hn0] at hq
      rw [hnn, if_neg hn0] at hq'
      have hq1 := Except.ok.inj hq
      have hq2 := Except.ok.inj hq'
      subst hq1 hq2
      have hpos : (0 : ℚ) < (n : ℚ) := by
        exact_mod_cast Nat.pos_of_ne_zero hn0
      exact sub_le_sub_left ((div_le_div_iff_of_pos_right hpos).mpr htt) 1

/-- Claim C10 (witness): narrowing the `[2,8]` interval to `[3,5]` over the
feature range `[0,10]` raises the amplitude from `2/5` to `4/5`. -/
theorem C10_witness : (2 : ℚ)/5 ≤ 4/5 := by
  have hmm : ∀ nm m, List.lookup nm featsC10 = some m → m.min ≤ m.max := by
    intro nm m h
    simp only [featsC10, List.lookup] at h
    split at h
    · cases h
      norm_num
    · cases h
  have hq : calculate_amplitude_metric featsC10 [attrC10] [] = .ok ((2 : ℚ)/5) := by
    simp [calculate_amplitude_metric, amplitudeScan, attrC10, featsC10]
    norm_num
  have hq' : calculate_amplitude_metric featsC10 [attrC10n] [] = .ok ((4 : ℚ)/5) := by
    simp [calculate_amplitude_metric, amplitudeScan, attrC10n, featsC10]
    norm_num
  exact C10_amplitude_monotone featsC10 [] [] [attrC10] [] [attrC10n] [] attrC10 attrC10n _ _
    hmm rfl rfl rfl (by norm_num [attrC10, attrC10n]) (by norm_num [attrC10n])
    (by norm_num [attrC10, attrC10n]) rfl rfl hq hq'
